import Mathlib

/-!
Verification of the RNDTBL query-language front end.

The repository specifies a Cypher-inspired query language twice:
as an ANTLR4 grammar (`RNDTBL.g4`) and as a Yacc/Bison parser sketch
(`rndtbl.y`).  This development embeds the ANTLR grammar as an inductive
derivation predicate over token lists (one constructor per production,
EBNF repetition desugared into explicit tail rules, EBNF `?` desugared
into an `opt` wrapper), embeds the layered expression grammar as an
executable recursive-descent parser producing an AST, embeds the
lexer's numeric-literal rules at the character level, and embeds the
Yacc sketch's C AST-construction helpers (`create_node` / `add_child`).
-/

namespace RNDTBL

set_option maxHeartbeats 1600000

/-- Tokens of the RNDTBL query language, one constructor per lexer rule
of `RNDTBL.g4` (keywords, literal kinds with their payloads, and the
punctuation/operator tokens used by the parser rules). -/
inductive Tok where
  | kMATCH | kCREATE | kMERGE | kDELETE | kDETACH | kSET | kREMOVE | kRETURN
  | kWITH | kWHERE | kORDER | kBY | kLIMIT | kSKIP | kAS | kASC | kDESC
  | kON | kDISTINCT
  | kAND | kOR | kNOT | kIN | kCONTAINS | kSTARTS | kENDS
  | kCOUNT | kSUM | kAVG | kMIN | kMAX | kCOLLECT
  | kSIZE | kLENGTH | kTYPE | kID | kLABELS | kKEYS | kPROPERTIES
  | kNOW | kTIMESTAMP | kNODES | kRELATIONSHIPS | kPATH
  | kCASE | kWHEN | kTHEN | kELSE | kEND
  | kNULL
  | boolLit (b : Bool)
  | ident (s : String)
  | intLit (n : Nat)
  | floatLit (s : String)
  | strLit (s : String)
  | semi | comma | dot | dotdot | colon
  | lparen | rparen | lbrackT | rbrackT | lbrace | rbrace
  | eqT | neT | bangEq | ltT | leT | gtT | geT
  | plusT | minusT | starT | slashT | percentT | caretT
  | plusEq | larrow | rarrow
  | eofT

/-- Non-terminals of the ANTLR grammar.  The names follow the rule names
in `RNDTBL.g4` (`varName` stands for the grammar's `variable`, which is a
Lean keyword).  The `..Tail` symbols desugar the EBNF repetitions
`(sep X)\x2a`, `opt n` desugars `n?`, and the remaining extra symbols name
EBNF token groups (`distinctTok` for `DISTINCT?` etc.). -/
inductive NT where
  | query | statement
  | matchStatement | createStatement | mergeStatement | deleteStatement
  | setStatement | removeStatement | returnStatement
  | setItem | removeItem | returnItem
  | whereClause | returnClause | orderByClause | sortItem
  | limitClause | skipClause
  | onCreateClause | onMatchClause
  | pattern | patternPart | patternElement | patternChain
  | nodePattern | nodeLabels | nodeLabel
  | relationshipPattern | leftArrow | rightArrow
  | relationshipTypes | relationshipType | rangeLiteral
  | properties | propertyKeyValue | propertyName
  | expression | orExpression | andExpression | notExpression
  | comparisonExpression | comparisonOperator
  | addExpression | multiplyExpression | powerExpression | unaryExpression
  | primaryExpression | propertyLookup | functionCall | functionName
  | listExpression | mapExpression | caseExpression | caseAlternative
  | varName | literal
  | semiTail | commaExprTail | commaSetItemTail | commaRemoveItemTail
  | commaReturnItemTail | commaSortItemTail | commaPatternPartTail
  | chainSeq | orTail | andTail | addTail | mulTail | powTail
  | commaPropKVTail | caseAlts
  | cmpTail | argList | propKVList | elseTail | rangeBody | asAlias
  | semiTok | distinctTok | detachTok | notTok | signTok | sortDir | intTok
  | opt (n : NT)

/-- Derivation predicate for the ANTLR grammar `RNDTBL.g4`:
`Der n w` holds iff the token list `w` is derivable from non-terminal
`n`.  Each constructor transcribes one production of the grammar; the
conclusion concatenates the sub-derivations in the production's order. -/
inductive Der : NT → List Tok → Prop where
  -- query : statement (';' statement)* ';'? EOF
  | query_c {s t o} : Der .statement s → Der .semiTail t → Der (.opt .semiTok) o →
      Der .query (s ++ t ++ o ++ [Tok.eofT])
  | semiTail_nil : Der .semiTail []
  | semiTail_cons {s t} : Der .statement s → Der .semiTail t →
      Der .semiTail ([Tok.semi] ++ s ++ t)
  | semiTok_c : Der .semiTok [Tok.semi]
  -- opt n : n?
  | opt_none {n} : Der (.opt n) []
  | opt_some {n w} : Der n w → Der (.opt n) w
  -- statement : one of the seven statement kinds
  | statement_match {w} : Der .matchStatement w → Der .statement w
  | statement_create {w} : Der .createStatement w → Der .statement w
  | statement_merge {w} : Der .mergeStatement w → Der .statement w
  | statement_delete {w} : Der .deleteStatement w → Der .statement w
  | statement_set {w} : Der .setStatement w → Der .statement w
  | statement_remove {w} : Der .removeStatement w → Der .statement w
  | statement_return {w} : Der .returnStatement w → Der .statement w
  -- matchStatement : MATCH pattern whereClause? returnClause?
  | matchStmt_c {p w r} : Der .pattern p → Der (.opt .whereClause) w →
      Der (.opt .returnClause) r →
      Der .matchStatement ([Tok.kMATCH] ++ p ++ w ++ r)
  -- createStatement : CREATE pattern
  | createStmt_c {p} : Der .pattern p → Der .createStatement ([Tok.kCREATE] ++ p)
  -- mergeStatement : MERGE pattern onCreateClause? onMatchClause?
  | mergeStmt_c {p c m} : Der .pattern p → Der (.opt .onCreateClause) c →
      Der (.opt .onMatchClause) m →
      Der .mergeStatement ([Tok.kMERGE] ++ p ++ c ++ m)
  -- deleteStatement : DELETE DETACH? expression (',' expression)*
  | deleteStmt_c {d e t} : Der (.opt .detachTok) d → Der .expression e →
      Der .commaExprTail t →
      Der .deleteStatement ([Tok.kDELETE] ++ d ++ e ++ t)
  | detachTok_c : Der .detachTok [Tok.kDETACH]
  | commaExpr_nil : Der .commaExprTail []
  | commaExpr_cons {e t} : Der .expression e → Der .commaExprTail t →
      Der .commaExprTail ([Tok.comma] ++ e ++ t)
  -- setStatement : SET setItem (',' setItem)*
  | setStmt_c {i t} : Der .setItem i → Der .commaSetItemTail t →
      Der .setStatement ([Tok.kSET] ++ i ++ t)
  | commaSetItem_nil : Der .commaSetItemTail []
  | commaSetItem_cons {i t} : Der .setItem i → Der .commaSetItemTail t →
      Der .commaSetItemTail ([Tok.comma] ++ i ++ t)
  -- setItem : variable '.' propertyName '=' expression
  --         | variable '=' expression
  --         | variable '+=' expression
  | setItem_prop {v p e} : Der .varName v → Der .propertyName p →
      Der .expression e →
      Der .setItem (v ++ [Tok.dot] ++ p ++ [Tok.eqT] ++ e)
  | setItem_replace {v e} : Der .varName v → Der .expression e →
      Der .setItem (v ++ [Tok.eqT] ++ e)
  | setItem_add {v e} : Der .varName v → Der .expression e →
      Der .setItem (v ++ [Tok.plusEq] ++ e)
  -- removeStatement : REMOVE removeItem (',' removeItem)*
  | removeStmt_c {i t} : Der .removeItem i → Der .commaRemoveItemTail t →
      Der .removeStatement ([Tok.kREMOVE] ++ i ++ t)
  | commaRemoveItem_nil : Der .commaRemoveItemTail []
  | commaRemoveItem_cons {i t} : Der .removeItem i → Der .commaRemoveItemTail t →
      Der .commaRemoveItemTail ([Tok.comma] ++ i ++ t)
  -- removeItem : variable '.' propertyName | variable ':' nodeLabel
  | removeItem_prop {v p} : Der .varName v → Der .propertyName p →
      Der .removeItem (v ++ [Tok.dot] ++ p)
  | removeItem_label {v l} : Der .varName v → Der .nodeLabel l →
      Der .removeItem (v ++ [Tok.colon] ++ l)
  -- returnStatement : RETURN DISTINCT? returnItem (',' returnItem)*
  --                   orderByClause? limitClause? skipClause?
  | returnStmt_c {d i t o l s} : Der (.opt .distinctTok) d → Der .returnItem i →
      Der .commaReturnItemTail t → Der (.opt .orderByClause) o →
      Der (.opt .limitClause) l → Der (.opt .skipClause) s →
      Der .returnStatement ([Tok.kRETURN] ++ d ++ i ++ t ++ o ++ l ++ s)
  | distinctTok_c : Der .distinctTok [Tok.kDISTINCT]
  | commaReturnItem_nil : Der .commaReturnItemTail []
  | commaReturnItem_cons {i t} : Der .returnItem i → Der .commaReturnItemTail t →
      Der .commaReturnItemTail ([Tok.comma] ++ i ++ t)
  -- returnItem : expression (AS variable)? | '*'
  | returnItem_expr {e a} : Der .expression e → Der (.opt .asAlias) a →
      Der .returnItem (e ++ a)
  | returnItem_all : Der .returnItem [Tok.starT]
  | asAlias_c {v} : Der .varName v → Der .asAlias ([Tok.kAS] ++ v)
  -- whereClause : WHERE expression
  | whereClause_c {e} : Der .expression e → Der .whereClause ([Tok.kWHERE] ++ e)
  -- returnClause: the ANTLR file references `returnClause?` in
  -- matchStatement without defining the rule; the Yacc sketch defines
  -- `return_clause : return_statement`, which is transcribed here.
  | returnClause_c {r} : Der .returnStatement r → Der .returnClause r
  -- orderByClause : ORDER BY sortItem (',' sortItem)*
  | orderBy_c {s t} : Der .sortItem s → Der .commaSortItemTail t →
      Der .orderByClause ([Tok.kORDER, Tok.kBY] ++ s ++ t)
  | commaSortItem_nil : Der .commaSortItemTail []
  | commaSortItem_cons {s t} : Der .sortItem s → Der .commaSortItemTail t →
      Der .commaSortItemTail ([Tok.comma] ++ s ++ t)
  -- sortItem : expression (ASC | DESC)?
  | sortItem_c {e a} : Der .expression e → Der (.opt .sortDir) a →
      Der .sortItem (e ++ a)
  | sortDir_asc : Der .sortDir [Tok.kASC]
  | sortDir_desc : Der .sortDir [Tok.kDESC]
  -- limitClause : LIMIT INTEGER ; skipClause : SKIP INTEGER
  | limit_c {n} : Der .limitClause [Tok.kLIMIT, Tok.intLit n]
  | skip_c {n} : Der .skipClause [Tok.kSKIP, Tok.intLit n]
  -- onCreateClause : ON CREATE setStatement ; onMatchClause : ON MATCH setStatement
  | onCreate_c {s} : Der .setStatement s →
      Der .onCreateClause ([Tok.kON, Tok.kCREATE] ++ s)
  | onMatch_c {s} : Der .setStatement s →
      Der .onMatchClause ([Tok.kON, Tok.kMATCH] ++ s)
  -- pattern : patternPart (',' patternPart)*
  | pattern_c {p t} : Der .patternPart p → Der .commaPatternPartTail t →
      Der .pattern (p ++ t)
  | commaPatternPart_nil : Der .commaPatternPartTail []
  | commaPatternPart_cons {p t} : Der .patternPart p →
      Der .commaPatternPartTail t →
      Der .commaPatternPartTail ([Tok.comma] ++ p ++ t)
  -- patternPart : variable? '=' patternElement | patternElement
  | patternPart_named {v e} : Der (.opt .varName) v → Der .patternElement e →
      Der .patternPart (v ++ [Tok.eqT] ++ e)
  | patternPart_anon {e} : Der .patternElement e → Der .patternPart e
  -- patternElement : nodePattern patternChain* | '(' patternElement ')'
  | patternElem_chain {n c} : Der .nodePattern n → Der .chainSeq c →
      Der .patternElement (n ++ c)
  | patternElem_paren {p} : Der .patternElement p →
      Der .patternElement ([Tok.lparen] ++ p ++ [Tok.rparen])
  | chainSeq_nil : Der .chainSeq []
  | chainSeq_cons {c t} : Der .patternChain c → Der .chainSeq t →
      Der .chainSeq (c ++ t)
  -- patternChain : relationshipPattern nodePattern
  | patternChain_c {r n} : Der .relationshipPattern r → Der .nodePattern n →
      Der .patternChain (r ++ n)
  -- nodePattern : '(' variable? nodeLabels? properties? ')'
  | nodePattern_c {v l pr} : Der (.opt .varName) v → Der (.opt .nodeLabels) l →
      Der (.opt .properties) pr →
      Der .nodePattern ([Tok.lparen] ++ v ++ l ++ pr ++ [Tok.rparen])
  -- nodeLabels : (':' nodeLabel)+
  | nodeLabels_one {l} : Der .nodeLabel l → Der .nodeLabels ([Tok.colon] ++ l)
  | nodeLabels_more {l r} : Der .nodeLabel l → Der .nodeLabels r →
      Der .nodeLabels ([Tok.colon] ++ l ++ r)
  -- nodeLabel : IDENTIFIER
  | nodeLabel_c {s} : Der .nodeLabel [Tok.ident s]
  -- relationshipPattern :
  --     leftArrow? '[' variable? relationshipTypes? rangeLiteral?
  --         properties? ']' rightArrow?
  --   | leftArrow? '[' variable? relationshipTypes? rangeLiteral?
  --         properties? ']' rightArrow?
  -- (the grammar lists the same alternative twice; both are transcribed)
  | relPat_altA {la v ty rg pr ra} : Der (.opt .leftArrow) la →
      Der (.opt .varName) v → Der (.opt .relationshipTypes) ty →
      Der (.opt .rangeLiteral) rg → Der (.opt .properties) pr →
      Der (.opt .rightArrow) ra →
      Der .relationshipPattern
        (la ++ [Tok.lbrackT] ++ v ++ ty ++ rg ++ pr ++ [Tok.rbrackT] ++ ra)
  | relPat_altB {la v ty rg pr ra} : Der (.opt .leftArrow) la →
      Der (.opt .varName) v → Der (.opt .relationshipTypes) ty →
      Der (.opt .rangeLiteral) rg → Der (.opt .properties) pr →
      Der (.opt .rightArrow) ra →
      Der .relationshipPattern
        (la ++ [Tok.lbrackT] ++ v ++ ty ++ rg ++ pr ++ [Tok.rbrackT] ++ ra)
  -- leftArrow : '<-' ; rightArrow : '->'
  | leftArrow_c : Der .leftArrow [Tok.larrow]
  | rightArrow_c : Der .rightArrow [Tok.rarrow]
  -- relationshipTypes : (':' relationshipType)+
  | relTypes_one {t} : Der .relationshipType t →
      Der .relationshipTypes ([Tok.colon] ++ t)
  | relTypes_more {t r} : Der .relationshipType t → Der .relationshipTypes r →
      Der .relationshipTypes ([Tok.colon] ++ t ++ r)
  -- relationshipType : IDENTIFIER
  | relType_c {s} : Der .relationshipType [Tok.ident s]
  -- rangeLiteral : '*' (INTEGER? '..' INTEGER?)? | '*' INTEGER
  | rangeLit_a {g} : Der (.opt .rangeBody) g →
      Der .rangeLiteral ([Tok.starT] ++ g)
  | rangeLit_b {n} : Der .rangeLiteral [Tok.starT, Tok.intLit n]
  | rangeBody_c {m n} : Der (.opt .intTok) m → Der (.opt .intTok) n →
      Der .rangeBody (m ++ [Tok.dotdot] ++ n)
  | intTok_c {n} : Der .intTok [Tok.intLit n]
  -- properties : '{' propertyKeyValue (',' propertyKeyValue)* '}' | '{' '}'
  | properties_c {kv t} : Der .propertyKeyValue kv → Der .commaPropKVTail t →
      Der .properties ([Tok.lbrace] ++ kv ++ t ++ [Tok.rbrace])
  | properties_empty : Der .properties [Tok.lbrace, Tok.rbrace]
  | commaPropKV_nil : Der .commaPropKVTail []
  | commaPropKV_cons {kv t} : Der .propertyKeyValue kv → Der .commaPropKVTail t →
      Der .commaPropKVTail ([Tok.comma] ++ kv ++ t)
  -- propertyKeyValue : propertyName ':' expression
  | propKV_c {p e} : Der .propertyName p → Der .expression e →
      Der .propertyKeyValue (p ++ [Tok.colon] ++ e)
  -- propertyName : IDENTIFIER
  | propertyName_c {s} : Der .propertyName [Tok.ident s]
  -- expression : orExpression
  | expression_c {e} : Der .orExpression e → Der .expression e
  -- orExpression : andExpression (OR andExpression)*
  | orExpr_c {a t} : Der .andExpression a → Der .orTail t →
      Der .orExpression (a ++ t)
  | orTail_nil : Der .orTail []
  | orTail_cons {a t} : Der .andExpression a → Der .orTail t →
      Der .orTail ([Tok.kOR] ++ a ++ t)
  -- andExpression : notExpression (AND notExpression)*
  | andExpr_c {n t} : Der .notExpression n → Der .andTail t →
      Der .andExpression (n ++ t)
  | andTail_nil : Der .andTail []
  | andTail_cons {n t} : Der .notExpression n → Der .andTail t →
      Der .andTail ([Tok.kAND] ++ n ++ t)
  -- notExpression : NOT? comparisonExpression
  | notExpr_c {n c} : Der (.opt .notTok) n → Der .comparisonExpression c →
      Der .notExpression (n ++ c)
  | notTok_c : Der .notTok [Tok.kNOT]
  -- comparisonExpression : addExpression (comparisonOperator addExpression)?
  | cmpExpr_c {a t} : Der .addExpression a → Der (.opt .cmpTail) t →
      Der .comparisonExpression (a ++ t)
  | cmpTail_c {o a} : Der .comparisonOperator o → Der .addExpression a →
      Der .cmpTail (o ++ a)
  -- comparisonOperator : '=' | '<>' | '!=' | '<' | '<=' | '>' | '>='
  --                    | IN | CONTAINS | STARTS WITH | ENDS WITH
  | cmpOp_eq : Der .comparisonOperator [Tok.eqT]
  | cmpOp_ne : Der .comparisonOperator [Tok.neT]
  | cmpOp_bang : Der .comparisonOperator [Tok.bangEq]
  | cmpOp_lt : Der .comparisonOperator [Tok.ltT]
  | cmpOp_le : Der .comparisonOperator [Tok.leT]
  | cmpOp_gt : Der .comparisonOperator [Tok.gtT]
  | cmpOp_ge : Der .comparisonOperator [Tok.geT]
  | cmpOp_in : Der .comparisonOperator [Tok.kIN]
  | cmpOp_contains : Der .comparisonOperator [Tok.kCONTAINS]
  | cmpOp_starts : Der .comparisonOperator [Tok.kSTARTS, Tok.kWITH]
  | cmpOp_ends : Der .comparisonOperator [Tok.kENDS, Tok.kWITH]
  -- addExpression : multiplyExpression (('+' | '-') multiplyExpression)*
  | addExpr_c {m t} : Der .multiplyExpression m → Der .addTail t →
      Der .addExpression (m ++ t)
  | addTail_nil : Der .addTail []
  | addTail_cons {o m t} : (o = Tok.plusT ∨ o = Tok.minusT) →
      Der .multiplyExpression m → Der .addTail t →
      Der .addTail ([o] ++ m ++ t)
  -- multiplyExpression : powerExpression (('*' | '/' | '%') powerExpression)*
  | mulExpr_c {p t} : Der .powerExpression p → Der .mulTail t →
      Der .multiplyExpression (p ++ t)
  | mulTail_nil : Der .mulTail []
  | mulTail_cons {o p t} : (o = Tok.starT ∨ o = Tok.slashT ∨ o = Tok.percentT) →
      Der .powerExpression p → Der .mulTail t →
      Der .mulTail ([o] ++ p ++ t)
  -- powerExpression : unaryExpression ('^' unaryExpression)*
  | powExpr_c {u t} : Der .unaryExpression u → Der .powTail t →
      Der .powerExpression (u ++ t)
  | powTail_nil : Der .powTail []
  | powTail_cons {u t} : Der .unaryExpression u → Der .powTail t →
      Der .powTail ([Tok.caretT] ++ u ++ t)
  -- unaryExpression : ('+' | '-')? primaryExpression
  | unaryExpr_c {s p} : Der (.opt .signTok) s → Der .primaryExpression p →
      Der .unaryExpression (s ++ p)
  | signTok_plus : Der .signTok [Tok.plusT]
  | signTok_minus : Der .signTok [Tok.minusT]
  -- primaryExpression : literal | variable | functionCall | propertyLookup
  --                   | listExpression | mapExpression | '(' expression ')'
  --                   | caseExpression
  | primary_literal {l} : Der .literal l → Der .primaryExpression l
  | primary_var {v} : Der .varName v → Der .primaryExpression v
  | primary_call {f} : Der .functionCall f → Der .primaryExpression f
  | primary_lookup {l} : Der .propertyLookup l → Der .primaryExpression l
  | primary_list {l} : Der .listExpression l → Der .primaryExpression l
  | primary_map {m} : Der .mapExpression m → Der .primaryExpression m
  | primary_paren {e} : Der .expression e →
      Der .primaryExpression ([Tok.lparen] ++ e ++ [Tok.rparen])
  | primary_case {c} : Der .caseExpression c → Der .primaryExpression c
  -- propertyLookup : primaryExpression '.' propertyName
  | propertyLookup_c {e p} : Der .primaryExpression e → Der .propertyName p →
      Der .propertyLookup (e ++ [Tok.dot] ++ p)
  -- functionCall : functionName '(' (expression (',' expression)*)? ')'
  | functionCall_c {f a} : Der .functionName f → Der (.opt .argList) a →
      Der .functionCall (f ++ [Tok.lparen] ++ a ++ [Tok.rparen])
  | argList_c {e t} : Der .expression e → Der .commaExprTail t →
      Der .argList (e ++ t)
  -- functionName : IDENTIFIER | COUNT | SUM | AVG | MIN | MAX | COLLECT
  --              | DISTINCT | SIZE | LENGTH | TYPE | ID | LABELS | KEYS
  --              | PROPERTIES | NOW | TIMESTAMP | NODES | RELATIONSHIPS | PATH
  | fn_ident {s} : Der .functionName [Tok.ident s]
  | fn_kw {t} : t ∈ [Tok.kCOUNT, Tok.kSUM, Tok.kAVG, Tok.kMIN, Tok.kMAX,
      Tok.kCOLLECT, Tok.kDISTINCT, Tok.kSIZE, Tok.kLENGTH, Tok.kTYPE,
      Tok.kID, Tok.kLABELS, Tok.kKEYS, Tok.kPROPERTIES, Tok.kNOW,
      Tok.kTIMESTAMP, Tok.kNODES, Tok.kRELATIONSHIPS, Tok.kPATH] →
      Der .functionName [t]
  -- listExpression : '[' (expression (',' expression)*)? ']'
  | listExpr_c {a} : Der (.opt .argList) a →
      Der .listExpression ([Tok.lbrackT] ++ a ++ [Tok.rbrackT])
  -- mapExpression : '{' (propertyKeyValue (',' propertyKeyValue)*)? '}'
  | mapExpr_c {a} : Der (.opt .propKVList) a →
      Der .mapExpression ([Tok.lbrace] ++ a ++ [Tok.rbrace])
  | propKVList_c {kv t} : Der .propertyKeyValue kv → Der .commaPropKVTail t →
      Der .propKVList (kv ++ t)
  -- caseExpression : CASE expression? caseAlternative+ (ELSE expression)? END
  | caseExpr_c {s a e} : Der (.opt .expression) s → Der .caseAlts a →
      Der (.opt .elseTail) e →
      Der .caseExpression ([Tok.kCASE] ++ s ++ a ++ e ++ [Tok.kEND])
  | caseAlts_one {c} : Der .caseAlternative c → Der .caseAlts c
  | caseAlts_more {c t} : Der .caseAlternative c → Der .caseAlts t →
      Der .caseAlts (c ++ t)
  | elseTail_c {e} : Der .expression e → Der .elseTail ([Tok.kELSE] ++ e)
  -- caseAlternative : WHEN expression THEN expression
  | caseAlt_c {w t} : Der .expression w → Der .expression t →
      Der .caseAlternative ([Tok.kWHEN] ++ w ++ [Tok.kTHEN] ++ t)
  -- variable : IDENTIFIER
  | varName_c {s} : Der .varName [Tok.ident s]
  -- literal : STRING | INTEGER | FLOAT | BOOLEAN | NULL
  | lit_str {s} : Der .literal [Tok.strLit s]
  | lit_int {n} : Der .literal [Tok.intLit n]
  | lit_float {s} : Der .literal [Tok.floatLit s]
  | lit_bool {b} : Der .literal [Tok.boolLit b]
  | lit_null : Der .literal [Tok.kNULL]

/-- `n?` derives either the empty list or an `n`-derivation. -/
theorem opt_iff {n : NT} {w : List Tok} :
    Der (.opt n) w ↔ w = [] ∨ Der n w := by
  constructor
  · intro h
    cases h with
    | opt_none => exact Or.inl rfl
    | opt_some h => exact Or.inr h
  · rintro (rfl | h)
    · exact Der.opt_none
    · exact Der.opt_some h

/-- Interleaves a `;` token between consecutive statement token lists,
the claim-side description of `statement (';' statement)\x2a`. -/
def semiSeparated : List (List Tok) → List Tok
  | [] => []
  | [s] => s
  | s :: rest => s ++ [Tok.semi] ++ semiSeparated rest

theorem semiSeparated_cons (s : List Tok) (rest : List (List Tok)) :
    semiSeparated (s :: rest) =
      s ++ (rest.map (fun u => [Tok.semi] ++ u)).flatten := by
  induction rest generalizing s with
  | nil => simp [semiSeparated]
  | cons r rr ih =>
      simp only [semiSeparated, List.map_cons, List.flatten, ih r]
      simp

theorem semiTail_sound : ∀ (n : Nat) (w : List Tok), w.length ≤ n →
    Der .semiTail w → ∃ ss : List (List Tok),
      (∀ u ∈ ss, Der .statement u) ∧
      w = (ss.map (fun u => [Tok.semi] ++ u)).flatten := by
  intro n
  induction n with
  | zero =>
      intro w hlen h
      cases h with
      | semiTail_nil => exact ⟨[], by simp, by simp⟩
      | semiTail_cons hs ht => simp at hlen
  | succ n ih =>
      intro w hlen h
      cases h with
      | semiTail_nil => exact ⟨[], by simp, by simp⟩
      | semiTail_cons hs ht =>
          rename_i s t
          simp only [List.length_append, List.length_cons, List.length_nil] at hlen
          obtain ⟨ss, hall, rfl⟩ := ih t (by omega) ht
          refine ⟨s :: ss, ?_, by simp⟩
          intro u hu
          rcases List.mem_cons.1 hu with rfl | hu
          · exact hs
          · exact hall u hu

/-- The `(';' statement)\x2a` helper derives exactly the flattened blocks
`[;] ++ statement`. -/
theorem semiTail_iff {w : List Tok} :
    Der .semiTail w ↔ ∃ ss : List (List Tok),
      (∀ u ∈ ss, Der .statement u) ∧
      w = (ss.map (fun u => [Tok.semi] ++ u)).flatten := by
  constructor
  · intro h
    exact semiTail_sound w.length w le_rfl h
  · rintro ⟨ss, hall, rfl⟩
    induction ss with
    | nil => exact Der.semiTail_nil
    | cons s rest ih =>
        have hs : Der .statement s := hall s (by simp)
        have ht := ih (fun u hu => hall u (List.mem_cons_of_mem _ hu))
        simpa using Der.semiTail_cons hs ht

/-- C1: the `query` rule accepts exactly the token sequences built from a
nonempty list of statements separated by `;`, an optional trailing `;`,
and the end-of-input marker; any other token sequence is rejected. -/
theorem query_accepts_iff (w : List Tok) :
    Der .query w ↔ ∃ ss : List (List Tok), ss ≠ [] ∧
      (∀ u ∈ ss, Der .statement u) ∧
      (w = semiSeparated ss ++ [Tok.eofT] ∨
       w = semiSeparated ss ++ [Tok.semi, Tok.eofT]) := by
  constructor
  · intro h
    cases h with
    | query_c hs ht ho =>
        rename_i s t o
        obtain ⟨ss, hall, rfl⟩ := semiTail_sound t.length t le_rfl ht
        refine ⟨s :: ss, by simp, ?_, ?_⟩
        · intro u hu
          rcases List.mem_cons.1 hu with rfl | hu
          · exact hs
          · exact hall u hu
        · rcases opt_iff.1 ho with rfl | hsemi
          · exact Or.inl (by simp [semiSeparated_cons])
          · cases hsemi with
            | semiTok_c => exact Or.inr (by simp [semiSeparated_cons])
  · rintro ⟨ss, hne, hall, hshape⟩
    cases ss with
    | nil => exact absurd rfl hne
    | cons s rest =>
        have hs : Der .statement s := hall s (by simp)
        have ht : Der .semiTail ((rest.map (fun u => [Tok.semi] ++ u)).flatten) :=
          semiTail_iff.2 ⟨rest, fun u hu => hall u (List.mem_cons_of_mem _ hu), rfl⟩
        rcases hshape with rfl | rfl
        · have := Der.query_c hs ht Der.opt_none
          simpa [semiSeparated_cons] using this
        · have := Der.query_c hs ht (Der.opt_some Der.semiTok_c)
          simpa [semiSeparated_cons] using this

/-- C5: the `setItem` rule derives exactly the three item forms
`var.prop = expr`, `var = expr`, and `var += expr`; in particular every
token sequence of one of these shapes is accepted. -/
theorem setItem_iff (w : List Tok) :
    Der .setItem w ↔
      (∃ x p e, Der .expression e ∧
        w = [Tok.ident x, Tok.dot, Tok.ident p, Tok.eqT] ++ e) ∨
      (∃ x e, Der .expression e ∧ w = [Tok.ident x, Tok.eqT] ++ e) ∨
      (∃ x e, Der .expression e ∧ w = [Tok.ident x, Tok.plusEq] ++ e) := by
  constructor
  · intro h
    cases h with
    | setItem_prop hv hp he =>
        cases hv with
        | varName_c =>
            cases hp with
            | propertyName_c =>
                rename_i x p
                exact Or.inl ⟨x, p, _, he, by simp⟩
    | setItem_replace hv he =>
        cases hv with
        | varName_c => rename_i x; exact Or.inr (Or.inl ⟨x, _, he, by simp⟩)
    | setItem_add hv he =>
        cases hv with
        | varName_c => rename_i x; exact Or.inr (Or.inr ⟨x, _, he, by simp⟩)
  · rintro (⟨x, p, e, he, rfl⟩ | ⟨x, e, he, rfl⟩ | ⟨x, e, he, rfl⟩)
    · simpa using Der.setItem_prop Der.varName_c Der.propertyName_c he
    · simpa using Der.setItem_replace Der.varName_c he
    · simpa using Der.setItem_add Der.varName_c he

/-- C6: the `mergeStatement` rule derives exactly `MERGE pattern` followed
by an optional `ON CREATE SET ...` clause and an optional
`ON MATCH SET ...` clause, so all four presence combinations of the two
clauses are accepted. -/
theorem mergeStatement_iff (w : List Tok) :
    Der .mergeStatement w ↔
      ∃ p c m, Der .pattern p ∧
        (c = [] ∨ ∃ s, Der .setStatement s ∧ c = [Tok.kON, Tok.kCREATE] ++ s) ∧
        (m = [] ∨ ∃ s, Der .setStatement s ∧ m = [Tok.kON, Tok.kMATCH] ++ s) ∧
        w = [Tok.kMERGE] ++ p ++ c ++ m := by
  constructor
  · intro h
    cases h with
    | mergeStmt_c hp hc hm =>
        refine ⟨_, _, _, hp, ?_, ?_, rfl⟩
        · rcases opt_iff.1 hc with rfl | hcc
          · exact Or.inl rfl
          · cases hcc with
            | onCreate_c hs => exact Or.inr ⟨_, hs, rfl⟩
        · rcases opt_iff.1 hm with rfl | hmm
          · exact Or.inl rfl
          · cases hmm with
            | onMatch_c hs => exact Or.inr ⟨_, hs, rfl⟩
  · rintro ⟨p, c, m, hp, hc, hm, rfl⟩
    refine Der.mergeStmt_c hp ?_ ?_
    · rcases hc with rfl | ⟨s, hs, rfl⟩
      · exact Der.opt_none
      · exact Der.opt_some (Der.onCreate_c hs)
    · rcases hm with rfl | ⟨s, hs, rfl⟩
      · exact Der.opt_none
      · exact Der.opt_some (Der.onMatch_c hs)

/-- C7: the `removeItem` rule derives exactly the two item forms
`var.prop` (delete one property) and `var:Label` (remove one label);
in particular every token sequence of either shape is accepted. -/
theorem removeItem_iff (w : List Tok) :
    Der .removeItem w ↔
      (∃ x p, w = [Tok.ident x, Tok.dot, Tok.ident p]) ∨
      (∃ x l, w = [Tok.ident x, Tok.colon, Tok.ident l]) := by
  constructor
  · intro h
    cases h with
    | removeItem_prop hv hp =>
        cases hv with
        | varName_c =>
            cases hp with
            | propertyName_c => rename_i x p; exact Or.inl ⟨x, p, by simp⟩
    | removeItem_label hv hl =>
        cases hv with
        | varName_c =>
            cases hl with
            | nodeLabel_c => rename_i x l; exact Or.inr ⟨x, l, by simp⟩
  · rintro (⟨x, p, rfl⟩ | ⟨x, l, rfl⟩)
    · simpa using Der.removeItem_prop Der.varName_c Der.propertyName_c
    · simpa using Der.removeItem_label Der.varName_c Der.nodeLabel_c

/-- C9: the `rangeLiteral` rule derives exactly the six variable-length
range shapes: bare `\x2a`, `\x2a..`, `\x2amin..`, `\x2a..max`,
`\x2amin..max`, and the single-integer exact-length `\x2an`; in
particular every token sequence of one of these shapes is accepted. -/
theorem rangeLiteral_iff (w : List Tok) :
    Der .rangeLiteral w ↔
      w = [Tok.starT] ∨
      w = [Tok.starT, Tok.dotdot] ∨
      (∃ m, w = [Tok.starT, Tok.intLit m, Tok.dotdot]) ∨
      (∃ n, w = [Tok.starT, Tok.dotdot, Tok.intLit n]) ∨
      (∃ m n, w = [Tok.starT, Tok.intLit m, Tok.dotdot, Tok.intLit n]) ∨
      (∃ n, w = [Tok.starT, Tok.intLit n]) := by
  constructor
  · intro h
    cases h with
    | rangeLit_a hg =>
        rcases opt_iff.1 hg with rfl | hbody
        · exact Or.inl rfl
        · cases hbody with
          | rangeBody_c hm hn =>
              rcases opt_iff.1 hm with rfl | hmi
              · rcases opt_iff.1 hn with rfl | hni
                · exact Or.inr (Or.inl rfl)
                · cases hni with
                  | intTok_c =>
                      rename_i n
                      exact Or.inr (Or.inr (Or.inr (Or.inl ⟨n, by simp⟩)))
              · cases hmi with
                | intTok_c =>
                    rename_i m
                    rcases opt_iff.1 hn with rfl | hni
                    · exact Or.inr (Or.inr (Or.inl ⟨m, by simp⟩))
                    · cases hni with
                      | intTok_c =>
                          rename_i n
                          exact Or.inr (Or.inr (Or.inr (Or.inr
                            (Or.inl ⟨m, n, by simp⟩))))
    | rangeLit_b =>
        rename_i n
        exact Or.inr (Or.inr (Or.inr (Or.inr (Or.inr ⟨n, rfl⟩))))
  · rintro (rfl | rfl | ⟨m, rfl⟩ | ⟨n, rfl⟩ | ⟨m, n, rfl⟩ | ⟨n, rfl⟩)
    · exact Der.rangeLit_a Der.opt_none
    · simpa using Der.rangeLit_a
        (Der.opt_some (Der.rangeBody_c Der.opt_none Der.opt_none))
    · simpa using Der.rangeLit_a
        (Der.opt_some (Der.rangeBody_c (Der.opt_some Der.intTok_c) Der.opt_none))
    · simpa using Der.rangeLit_a
        (Der.opt_some (Der.rangeBody_c Der.opt_none (Der.opt_some Der.intTok_c)))
    · simpa using Der.rangeLit_a
        (Der.opt_some (Der.rangeBody_c (Der.opt_some Der.intTok_c)
          (Der.opt_some Der.intTok_c)))
    · exact Der.rangeLit_b

/-- C3 counterexample: the `relationshipPattern` rule accepts a token
shape with an arrowhead on BOTH sides, `<-[]->`, because the left and
right arrowheads are independently optional; the grammar does not limit
arrowheads to at most one side. -/
theorem relationshipPattern_accepts_double_arrow :
    Der .relationshipPattern
      [Tok.larrow, Tok.lbrackT, Tok.rbrackT, Tok.rarrow] := by
  have := Der.relPat_altA (Der.opt_some Der.leftArrow_c) Der.opt_none
    Der.opt_none Der.opt_none Der.opt_none (Der.opt_some Der.rightArrow_c)
  simpa using this

/-- C3 (amended): the arrowheads of `relationshipPattern` are optional on
each side independently: for every bracket body, the shapes with a right
arrowhead only, a left arrowhead only, no arrowhead, and arrowheads on
both sides are all accepted. -/
theorem relationshipPattern_arrows_independent (l r : Bool)
    (v ty rg pr : List Tok)
    (hv : Der (.opt .varName) v) (hty : Der (.opt .relationshipTypes) ty)
    (hrg : Der (.opt .rangeLiteral) rg) (hpr : Der (.opt .properties) pr) :
    Der .relationshipPattern
      ((cond l [Tok.larrow] []) ++ [Tok.lbrackT] ++ v ++ ty ++ rg ++ pr ++
        [Tok.rbrackT] ++ (cond r [Tok.rarrow] [])) := by
  refine Der.relPat_altA ?_ hv hty hrg hpr ?_
  · cases l
    · exact Der.opt_none
    · exact Der.opt_some Der.leftArrow_c
  · cases r
    · exact Der.opt_none
    · exact Der.opt_some Der.rightArrow_c

/-- Witness for the amended C3 theorem: the right-arrow-only empty
relationship pattern `-[]->` is accepted. -/
theorem relationshipPattern_arrows_independent_witness :
    Der .relationshipPattern [Tok.lbrackT, Tok.rbrackT, Tok.rarrow] := by
  have := relationshipPattern_arrows_independent false true [] [] [] []
    Der.opt_none Der.opt_none Der.opt_none Der.opt_none
  simpa using this

/-- The token shape of a single `relationshipPattern` alternative of the
ANTLR grammar, as its own language: `leftArrow? '[' variable?
relationshipTypes? rangeLiteral? properties? ']' rightArrow?`. -/
inductive RelPatSingle : List Tok → Prop where
  | mk {la v ty rg pr ra} : Der (.opt .leftArrow) la → Der (.opt .varName) v →
      Der (.opt .relationshipTypes) ty → Der (.opt .rangeLiteral) rg →
      Der (.opt .properties) pr → Der (.opt .rightArrow) ra →
      RelPatSingle
        (la ++ [Tok.lbrackT] ++ v ++ ty ++ rg ++ pr ++ [Tok.rbrackT] ++ ra)

/-- C8: the two alternatives of the ANTLR `relationshipPattern` rule have
identical shape, so the rule's language equals the language of either
alternative alone: the duplication is semantically inert. -/
theorem relationshipPattern_duplicate_inert (w : List Tok) :
    Der .relationshipPattern w ↔ RelPatSingle w := by
  constructor
  · intro h
    cases h with
    | relPat_altA a b c d e f => exact RelPatSingle.mk a b c d e f
    | relPat_altB a b c d e f => exact RelPatSingle.mk a b c d e f
  · intro h
    cases h with
    | mk a b c d e f => exact Der.relPat_altA a b c d e f

/-!
## Executable embedding of the layered expression grammar

`RNDTBL.g4` layers `orExpression` .. `unaryExpression` by precedence;
the functions below transcribe those rules as a recursive-descent parser
(the form the spec prescribes for expressions), with a fuel argument for
termination.  The left-nested folds for `OR`, `AND`, additive and
multiplicative chains and the right-nested fold for `^` chains follow the
associativity declared in the Yacc sketch's precedence block
(`%left OR`, `%left AND`, `%left '+' '-'`, `%left '\x2a' '/' '%'`,
`%right '^'`).
-/

/-- The comparison operators of `comparisonOperator`. -/
inductive CmpOp where
  | ceq | cne | cbang | clt | cle | cgt | cge
  | cin | ccont | cstw | cenw

/-- Expression AST produced by the recursive-descent embedding of the
layered expression rules. -/
inductive Exp where
  | lit (t : Tok)
  | evar (s : String)
  | call (f : Tok) (args : List Exp)
  | dotE (e : Exp) (p : String)
  | listE (es : List Exp)
  | mapE (kvs : List (String × Exp))
  | caseE (scrut : Option Exp) (alts : List (Exp × Exp))
      (otherwise : Option Exp)
  | orE (l r : Exp)
  | andE (l r : Exp)
  | notE (e : Exp)
  | cmpE (op : CmpOp) (l r : Exp)
  | addE (l r : Exp)
  | subE (l r : Exp)
  | mulE (l r : Exp)
  | divE (l r : Exp)
  | modE (l r : Exp)
  | powE (l r : Exp)
  | posE (e : Exp)
  | negE (e : Exp)

/-- The keyword alternatives of the `functionName` rule. -/
def isFnKw : Tok → Bool
  | .kCOUNT | .kSUM | .kAVG | .kMIN | .kMAX | .kCOLLECT | .kDISTINCT
  | .kSIZE | .kLENGTH | .kTYPE | .kID | .kLABELS | .kKEYS | .kPROPERTIES
  | .kNOW | .kTIMESTAMP | .kNODES | .kRELATIONSHIPS | .kPATH => true
  | _ => false

/-- Recognises one `comparisonOperator` at the head of the token stream
(`STARTS WITH` and `ENDS WITH` are two-token operators). -/
def peelCmpOp : List Tok → Option (CmpOp × List Tok)
  | Tok.eqT :: r => some (.ceq, r)
  | Tok.neT :: r => some (.cne, r)
  | Tok.bangEq :: r => some (.cbang, r)
  | Tok.ltT :: r => some (.clt, r)
  | Tok.leT :: r => some (.cle, r)
  | Tok.gtT :: r => some (.cgt, r)
  | Tok.geT :: r => some (.cge, r)
  | Tok.kIN :: r => some (.cin, r)
  | Tok.kCONTAINS :: r => some (.ccont, r)
  | Tok.kSTARTS :: Tok.kWITH :: r => some (.cstw, r)
  | Tok.kENDS :: Tok.kWITH :: r => some (.cenw, r)
  | _ => none

/-- Right fold of a `^` chain, per the Yacc declaration `%right '^'`. -/
def powFold (e : Exp) : List Exp → Exp
  | [] => e
  | u :: us => .powE e (powFold u us)

mutual

/-- expression : orExpression -/
def parseExpression (f : Nat) (ts : List Tok) : Option (Exp × List Tok) :=
  match f with
  | 0 => none
  | f + 1 => parseOr f ts

/-- orExpression : andExpression (OR andExpression)\x2a -/
def parseOr (f : Nat) (ts : List Tok) : Option (Exp × List Tok) :=
  match f with
  | 0 => none
  | f + 1 => do
    let (l, ts1) ← parseAnd f ts
    parseOrTail f l ts1

def parseOrTail (f : Nat) (acc : Exp) (ts : List Tok) :
    Option (Exp × List Tok) :=
  match f with
  | 0 => none
  | f + 1 =>
    match ts with
    | Tok.kOR :: rest => do
        let (r, ts2) ← parseAnd f rest
        parseOrTail f (.orE acc r) ts2
    | _ => some (acc, ts)

/-- andExpression : notExpression (AND notExpression)\x2a -/
def parseAnd (f : Nat) (ts : List Tok) : Option (Exp × List Tok) :=
  match f with
  | 0 => none
  | f + 1 => do
    let (l, ts1) ← parseNot f ts
    parseAndTail f l ts1

def parseAndTail (f : Nat) (acc : Exp) (ts : List Tok) :
    Option (Exp × List Tok) :=
  match f with
  | 0 => none
  | f + 1 =>
    match ts with
    | Tok.kAND :: rest => do
        let (r, ts2) ← parseNot f rest
        parseAndTail f (.andE acc r) ts2
    | _ => some (acc, ts)

/-- notExpression : NOT? comparisonExpression -/
def parseNot (f : Nat) (ts : List Tok) : Option (Exp × List Tok) :=
  match f with
  | 0 => none
  | f + 1 =>
    match ts with
    | Tok.kNOT :: rest => do
        let (e, ts1) ← parseCmp f rest
        pure (.notE e, ts1)
    | _ => parseCmp f ts

/-- comparisonExpression : addExpression (comparisonOperator addExpression)? -/
def parseCmp (f : Nat) (ts : List Tok) : Option (Exp × List Tok) :=
  match f with
  | 0 => none
  | f + 1 => do
    let (l, ts1) ← parseAdd f ts
    match peelCmpOp ts1 with
    | some (op, rest) => do
        let (r, ts2) ← parseAdd f rest
        pure (.cmpE op l r, ts2)
    | none => pure (l, ts1)

/-- addExpression : multiplyExpression (('+' | '-') multiplyExpression)\x2a -/
def parseAdd (f : Nat) (ts : List Tok) : Option (Exp × List Tok) :=
  match f with
  | 0 => none
  | f + 1 => do
    let (l, ts1) ← parseMul f ts
    parseAddTail f l ts1

def parseAddTail (f : Nat) (acc : Exp) (ts : List Tok) :
    Option (Exp × List Tok) :=
  match f with
  | 0 => none
  | f + 1 =>
    match ts with
    | Tok.plusT :: rest => do
        let (r, ts2) ← parseMul f rest
        parseAddTail f (.addE acc r) ts2
    | Tok.minusT :: rest => do
        let (r, ts2) ← parseMul f rest
        parseAddTail f (.subE acc r) ts2
    | _ => some (acc, ts)

/-- multiplyExpression : powerExpression (('\x2a' | '/' | '%') powerExpression)\x2a -/
def parseMul (f : Nat) (ts : List Tok) : Option (Exp × List Tok) :=
  match f with
  | 0 => none
  | f + 1 => do
    let (l, ts1) ← parsePow f ts
    parseMulTail f l ts1

def parseMulTail (f : Nat) (acc : Exp) (ts : List Tok) :
    Option (Exp × List Tok) :=
  match f with
  | 0 => none
  | f + 1 =>
    match ts with
    | Tok.starT :: rest => do
        let (r, ts2) ← parsePow f rest
        parseMulTail f (.mulE acc r) ts2
    | Tok.slashT :: rest => do
        let (r, ts2) ← parsePow f rest
        parseMulTail f (.divE acc r) ts2
    | Tok.percentT :: rest => do
        let (r, ts2) ← parsePow f rest
        parseMulTail f (.modE acc r) ts2
    | _ => some (acc, ts)

/-- powerExpression : unaryExpression ('^' unaryExpression)\x2a -/
def parsePow (f : Nat) (ts : List Tok) : Option (Exp × List Tok) :=
  match f with
  | 0 => none
  | f + 1 => do
    let (u, ts1) ← parseUnary f ts
    let (us, ts2) ← parsePowTail f ts1
    pure (powFold u us, ts2)

def parsePowTail (f : Nat) (ts : List Tok) : Option (List Exp × List Tok) :=
  match f with
  | 0 => none
  | f + 1 =>
    match ts with
    | Tok.caretT :: rest => do
        let (u, ts1) ← parseUnary f rest
        let (us, ts2) ← parsePowTail f ts1
        pure (u :: us, ts2)
    | _ => some ([], ts)

/-- unaryExpression : ('+' | '-')? primaryExpression -/
def parseUnary (f : Nat) (ts : List Tok) : Option (Exp × List Tok) :=
  match f with
  | 0 => none
  | f + 1 =>
    match ts with
    | Tok.plusT :: rest => do
        let (e, ts1) ← parsePrimary f rest
        pure (.posE e, ts1)
    | Tok.minusT :: rest => do
        let (e, ts1) ← parsePrimary f rest
        pure (.negE e, ts1)
    | _ => parsePrimary f ts

/-- primaryExpression, with the left-recursive `propertyLookup`
alternative handled as a postfix `'.' propertyName` loop. -/
def parsePrimary (f : Nat) (ts : List Tok) : Option (Exp × List Tok) :=
  match f with
  | 0 => none
  | f + 1 => do
    let (b, ts1) ← parsePrimaryBase f ts
    parseLookupTail f b ts1

def parseLookupTail (f : Nat) (acc : Exp) (ts : List Tok) :
    Option (Exp × List Tok) :=
  match f with
  | 0 => none
  | f + 1 =>
    match ts with
    | Tok.dot :: Tok.ident p :: rest => parseLookupTail f (.dotE acc p) rest
    | _ => some (acc, ts)

/-- The non-left-recursive alternatives of primaryExpression:
literal, variable, functionCall, listExpression, mapExpression,
parenthesised expression and caseExpression. -/
def parsePrimaryBase (f : Nat) (ts : List Tok) : Option (Exp × List Tok) :=
  match f with
  | 0 => none
  | f + 1 =>
    match ts with
    | Tok.strLit s :: rest => some (.lit (.strLit s), rest)
    | Tok.intLit n :: rest => some (.lit (.intLit n), rest)
    | Tok.floatLit s :: rest => some (.lit (.floatLit s), rest)
    | Tok.boolLit b :: rest => some (.lit (.boolLit b), rest)
    | Tok.kNULL :: rest => some (.lit .kNULL, rest)
    | Tok.ident s :: Tok.lparen :: rest => parseCallArgs f (Tok.ident s) rest
    | Tok.ident s :: rest => some (.evar s, rest)
    | Tok.lbrackT :: rest => parseListRest f rest
    | Tok.lbrace :: rest => parseMapRest f rest
    | Tok.lparen :: rest => do
        let (e, ts1) ← parseExpression f rest
        match ts1 with
        | Tok.rparen :: ts2 => some (e, ts2)
        | _ => none
    | Tok.kCASE :: rest => parseCaseRest f rest
    | t :: Tok.lparen :: rest =>
        if isFnKw t then parseCallArgs f t rest else none
    | _ => none

/-- functionCall arguments after the opening parenthesis. -/
def parseCallArgs (f : Nat) (fname : Tok) (ts : List Tok) :
    Option (Exp × List Tok) :=
  match f with
  | 0 => none
  | f + 1 =>
    match ts with
    | Tok.rparen :: rest => some (.call fname [], rest)
    | _ => do
        let (e, ts1) ← parseExpression f ts
        let (es, ts2) ← parseArgsTail f ts1
        match ts2 with
        | Tok.rparen :: rest => some (.call fname (e :: es), rest)
        | _ => none

def parseArgsTail (f : Nat) (ts : List Tok) : Option (List Exp × List Tok) :=
  match f with
  | 0 => none
  | f + 1 =>
    match ts with
    | Tok.comma :: rest => do
        let (e, ts1) ← parseExpression f rest
        let (es, ts2) ← parseArgsTail f ts1
        pure (e :: es, ts2)
    | _ => some ([], ts)

/-- listExpression body after the opening bracket. -/
def parseListRest (f : Nat) (ts : List Tok) : Option (Exp × List Tok) :=
  match f with
  | 0 => none
  | f + 1 =>
    match ts with
    | Tok.rbrackT :: rest => some (.listE [], rest)
    | _ => do
        let (e, ts1) ← parseExpression f ts
        let (es, ts2) ← parseArgsTail f ts1
        match ts2 with
        | Tok.rbrackT :: rest => some (.listE (e :: es), rest)
        | _ => none

/-- mapExpression body after the opening brace. -/
def parseMapRest (f : Nat) (ts : List Tok) : Option (Exp × List Tok) :=
  match f with
  | 0 => none
  | f + 1 =>
    match ts with
    | Tok.rbrace :: rest => some (.mapE [], rest)
    | Tok.ident k :: Tok.colon :: rest => do
        let (e, ts1) ← parseExpression f rest
        let (kvs, ts2) ← parseMapTail f ts1
        match ts2 with
        | Tok.rbrace :: r => some (.mapE ((k, e) :: kvs), r)
        | _ => none
    | _ => none

def parseMapTail (f : Nat) (ts : List Tok) :
    Option (List (String × Exp) × List Tok) :=
  match f with
  | 0 => none
  | f + 1 =>
    match ts with
    | Tok.comma :: Tok.ident k :: Tok.colon :: rest => do
        let (e, ts1) ← parseExpression f rest
        let (kvs, ts2) ← parseMapTail f ts1
        pure ((k, e) :: kvs, ts2)
    | _ => some ([], ts)

/-- caseExpression body after CASE: expression? caseAlternative+
(ELSE expression)? END. -/
def parseCaseRest (f : Nat) (ts : List Tok) : Option (Exp × List Tok) :=
  match f with
  | 0 => none
  | f + 1 =>
    match ts with
    | Tok.kWHEN :: _ => parseCaseAfterScrut f none ts
    | _ => do
        let (s, ts1) ← parseExpression f ts
        parseCaseAfterScrut f (some s) ts1

def parseCaseAfterScrut (f : Nat) (scrut : Option Exp) (ts : List Tok) :
    Option (Exp × List Tok) :=
  match f with
  | 0 => none
  | f + 1 => do
    let (a, ts1) ← parseCaseAlt f ts
    let (alts, ts2) ← parseCaseAltsTail f ts1
    match ts2 with
    | Tok.kELSE :: rest => do
        let (e, ts3) ← parseExpression f rest
        match ts3 with
        | Tok.kEND :: ts4 => some (.caseE scrut (a :: alts) (some e), ts4)
        | _ => none
    | Tok.kEND :: ts3 => some (.caseE scrut (a :: alts) none, ts3)
    | _ => none

/-- caseAlternative : WHEN expression THEN expression -/
def parseCaseAlt (f : Nat) (ts : List Tok) :
    Option ((Exp × Exp) × List Tok) :=
  match f with
  | 0 => none
  | f + 1 =>
    match ts with
    | Tok.kWHEN :: rest => do
        let (c, ts1) ← parseExpression f rest
        match ts1 with
        | Tok.kTHEN :: rest2 => do
            let (t, ts2) ← parseExpression f rest2
            pure ((c, t), ts2)
        | _ => none
    | _ => none

def parseCaseAltsTail (f : Nat) (ts : List Tok) :
    Option (List (Exp × Exp) × List Tok) :=
  match f with
  | 0 => none
  | f + 1 =>
    match ts with
    | Tok.kWHEN :: _ => do
        let (a, ts1) ← parseCaseAlt f ts
        let (alts, ts2) ← parseCaseAltsTail f ts1
        pure (a :: alts, ts2)
    | _ => some ([], ts)

end

/-- C2: the expression parse groups operators by the documented precedence
order: `a OR b AND c` parses as `a OR (b AND c)`, `NOT a AND b` as
`(NOT a) AND b`, `a = b + c` as `a = (b + c)`, `a + b \x2a c` as
`a + (b \x2a c)`, `a ^ b ^ c` right-associatively as `a ^ (b ^ c)`, and
unary sign binds tighter than `^`: `-a ^ b` parses as `(-a) ^ b`. -/
theorem expression_precedence (a b c : String) :
    parseExpression 20
        [Tok.ident a, Tok.kOR, Tok.ident b, Tok.kAND, Tok.ident c] =
      some (.orE (.evar a) (.andE (.evar b) (.evar c)), [])
    ∧ parseExpression 20
        [Tok.kNOT, Tok.ident a, Tok.kAND, Tok.ident b] =
      some (.andE (.notE (.evar a)) (.evar b), [])
    ∧ parseExpression 20
        [Tok.ident a, Tok.eqT, Tok.ident b, Tok.plusT, Tok.ident c] =
      some (.cmpE .ceq (.evar a) (.addE (.evar b) (.evar c)), [])
    ∧ parseExpression 20
        [Tok.ident a, Tok.plusT, Tok.ident b, Tok.starT, Tok.ident c] =
      some (.addE (.evar a) (.mulE (.evar b) (.evar c)), [])
    ∧ parseExpression 20
        [Tok.ident a, Tok.caretT, Tok.ident b, Tok.caretT, Tok.ident c] =
      some (.powE (.evar a) (.powE (.evar b) (.evar c)), [])
    ∧ parseExpression 20
        [Tok.minusT, Tok.ident a, Tok.caretT, Tok.ident b] =
      some (.powE (.negE (.evar a)) (.evar b), []) :=
  ⟨rfl, rfl, rfl, rfl, rfl, rfl⟩

/-!
## Lexer numeric-literal rules

Character-level embedding of the relevant lexer rules of `RNDTBL.g4`:

  INTEGER    : [0-9]+ ;
  FLOAT      : [0-9]+ '.' [0-9]+ ([eE] [+-]? [0-9]+)? ;
  IDENTIFIER : [a-zA-Z_][a-zA-Z0-9_] followed by more of the same ;

Each `matches..` function decides whether a whole character string is
matched by the rule's regular expression.
-/

/-- INTEGER : [0-9]+ -/
def matchesINTEGER (s : List Char) : Bool :=
  !s.isEmpty && s.all Char.isDigit

/-- FLOAT : [0-9]+ '.' [0-9]+ ([eE] [+-]? [0-9]+)? .  The leading digit
runs are taken greedily, which coincides with the regular expression
because each run is delimited by a non-digit. -/
def matchesFLOAT (s : List Char) : Bool :=
  match s.takeWhile Char.isDigit, s.dropWhile Char.isDigit with
  | [], _ => false
  | _ :: _, '.' :: r2 =>
      (match r2.takeWhile Char.isDigit, r2.dropWhile Char.isDigit with
       | [], _ => false
       | _ :: _, [] => true
       | _ :: _, e :: r4 =>
           if e = 'e' || e = 'E' then
             matchesINTEGER
               (match r4 with
                | c :: t => if c = '+' || c = '-' then t else r4
                | [] => r4)
           else false)
  | _ :: _, _ => false

/-- First character class of IDENTIFIER: [a-zA-Z_]. -/
def isIdentStart (c : Char) : Bool :=
  ('a' ≤ c && c ≤ 'z') || ('A' ≤ c && c ≤ 'Z') || c = '_'

/-- Continuation character class of IDENTIFIER: [a-zA-Z0-9_]. -/
def isIdentRest (c : Char) : Bool :=
  isIdentStart c || c.isDigit

/-- IDENTIFIER : [a-zA-Z_][a-zA-Z0-9_] repeated -/
def matchesIDENTIFIER (s : List Char) : Bool :=
  match s with
  | [] => false
  | c :: cs => isIdentStart c && cs.all isIdentRest

/-- C4 counterexample: the literal `1e5` — an exponent marker with no
decimal point — does not match the FLOAT lexer rule (and does not match
INTEGER either), so it does not lex as a single FLOAT token. -/
theorem exponent_literal_not_single_float :
    matchesFLOAT ['1', 'e', '5'] = false
    ∧ matchesINTEGER ['1', 'e', '5'] = false := by
  exact ⟨by decide, by decide⟩

/-- C4 (amended): INTEGER tokens are digit-only, so they contain neither
a decimal point nor an exponent marker; every FLOAT token contains a
decimal point; and `1e5` matches neither numeric rule nor IDENTIFIER as
a whole — its maximal numeric prefix is the INTEGER `1`, and the
remainder `e5` matches IDENTIFIER. -/
theorem lexer_numeric_classification :
    (∀ s : List Char, matchesINTEGER s = true →
        '.' ∉ s ∧ 'e' ∉ s ∧ 'E' ∉ s)
    ∧ (∀ s : List Char, matchesFLOAT s = true → '.' ∈ s)
    ∧ matchesFLOAT ['1', 'e', '5'] = false
    ∧ matchesINTEGER ['1', 'e', '5'] = false
    ∧ matchesIDENTIFIER ['1', 'e', '5'] = false
    ∧ matchesINTEGER ['1'] = true
    ∧ matchesIDENTIFIER ['e', '5'] = true := by
  refine ⟨?_, ?_, by decide, by decide, by decide, by decide, by decide⟩
  · intro s h
    unfold matchesINTEGER at h
    rw [Bool.and_eq_true, List.all_eq_true] at h
    exact ⟨fun hc => absurd (h.2 _ hc) (by decide),
           fun hc => absurd (h.2 _ hc) (by decide),
           fun hc => absurd (h.2 _ hc) (by decide)⟩
  · intro s h
    unfold matchesFLOAT at h
    split at h
    · exact absurd h (by simp)
    · rename_i r2 heqTake heqDrop
      have hmem : ('.' : Char) ∈ List.dropWhile Char.isDigit s := by
        rw [heqDrop]; exact List.mem_cons_self _ _
      have hsplit :
          List.takeWhile Char.isDigit s ++ List.dropWhile Char.isDigit s = s :=
        List.takeWhile_append_dropWhile Char.isDigit s
      rw [← hsplit]
      exact List.mem_append_right _ hmem
    · exact absurd h (by simp)

/-- Witness for the amended C4 theorem: `42` is an INTEGER with no dot
or exponent marker, and the FLOAT `1.5` contains a decimal point. -/
theorem lexer_numeric_classification_witness :
    ('.' ∉ ['4', '2'] ∧ 'e' ∉ ['4', '2'] ∧ 'E' ∉ ['4', '2'])
    ∧ '.' ∈ ['1', '.', '5'] :=
  ⟨lexer_numeric_classification.1 ['4', '2'] (by decide),
   lexer_numeric_classification.2.1 ['1', '.', '5'] (by decide)⟩

/-!
## AST construction helpers of the Yacc parser

Embedding of the C declarations in `rndtbl.y`: `NodeType`, `ASTNode`
(whose `children` field is an array of pointers, modelled as a list of
`Option ASTNode` so that a null entry is representable), `create_node`
and `add_child`.  `add_child` transcribes

  if (!parent || !child) return parent;
  ... append child to parent's array ...

with the two null cases returned before any field is accessed.
-/

/-- The `NodeType` enumeration of `rndtbl.y`. -/
inductive NodeType where
  | NODE_QUERY | NODE_MATCH | NODE_CREATE | NODE_RETURN | NODE_WHERE
  | NODE_PATTERN | NODE_NODE | NODE_RELATIONSHIP | NODE_PROPERTY
  | NODE_EXPRESSION | NODE_LITERAL | NODE_IDENTIFIER

/-- The `ASTNode` struct: kind tag, optional value string (the C code
stores `NULL` when no value is given), and the child pointer array. -/
inductive ASTNode where
  | mk (ty : NodeType) (value : Option String)
      (children : List (Option ASTNode))

/-- Child pointer array of a node. -/
def ASTNode.children : ASTNode → List (Option ASTNode)
  | .mk _ _ cs => cs

/-- `create_node`: allocates a fresh node with no children. -/
def create_node (ty : NodeType) (value : Option String) : ASTNode :=
  .mk ty value []

/-- `add_child`: returns `parent` unchanged when either pointer is null,
otherwise appends `child` to the parent's child array and returns the
parent.  Only the non-null branch destructures its arguments, mirroring
the C guard `if (!parent || !child) return parent;`. -/
def add_child (parent child : Option ASTNode) : Option ASTNode :=
  match parent, child with
  | none, _ => none
  | some p, none => some p
  | some (.mk ty v cs), some c => some (.mk ty v (cs ++ [some c]))

/-- A non-null AST pointer whose transitive child arrays contain no null
entry: the only constructor targets `some` and requires every child
pointer to satisfy the same predicate. -/
inductive GoodPtr : Option ASTNode → Prop where
  | mk {ty v cs} : (∀ c ∈ cs, GoodPtr c) → GoodPtr (some (.mk ty v cs))

/-- C10: `add_child` is null-safe: it returns the parent unchanged
(appending nothing) whenever either argument is null, it preserves the
no-null-child-entry invariant, and `create_node` establishes that
invariant — so child arrays of API-built AST nodes never contain a null
entry. -/
theorem add_child_null_safe :
    (∀ (p c : Option ASTNode), p = none ∨ c = none → add_child p c = p)
    ∧ (∀ (p c : Option ASTNode), GoodPtr p → GoodPtr c →
        GoodPtr (add_child p c))
    ∧ (∀ (ty : NodeType) (v : Option String),
        GoodPtr (some (create_node ty v))) := by
  refine ⟨?_, ?_, ?_⟩
  · rintro p c (rfl | rfl)
    · rfl
    · cases p with
      | none => rfl
      | some a => cases a with | mk ty v cs => rfl
  · intro p c hp hc
    cases hp with
    | mk hcs =>
        cases hc with
        | mk hcc =>
            refine GoodPtr.mk ?_
            intro x hx
            rcases List.mem_append.1 hx with hx | hx
            · exact hcs x hx
            · rcases List.mem_singleton.1 hx with rfl
              exact GoodPtr.mk hcc
  · intro ty v
    exact GoodPtr.mk (by intro c hc; simp at hc)

/-- Witness for the C10 theorem: a null parent is returned unchanged, and
appending a fresh node to a fresh node preserves the no-null invariant. -/
theorem add_child_null_safe_witness :
    add_child none (some (create_node .NODE_IDENTIFIER none)) = none
    ∧ GoodPtr (add_child (some (create_node .NODE_QUERY (some "query")))
        (some (create_node .NODE_IDENTIFIER none))) :=
  ⟨add_child_null_safe.1 _ _ (Or.inl rfl),
   add_child_null_safe.2.1 _ _
     (add_child_null_safe.2.2 .NODE_QUERY (some "query"))
     (add_child_null_safe.2.2 .NODE_IDENTIFIER none)⟩

end RNDTBL
